import Mathlib

/-!
Verification of the braiins/braiins S9 miner core against its specification.

The Rust sources under `open/bosminer/bosminer-antminer/src/` (`monitor.rs`,
`registry.rs`, `bm1387.rs`) are shallowly embedded below:

* machine integers (`u8`, `u32`, `usize`) become `Nat` with explicit masks
  where overflow or truncation matters;
* `f32` temperatures become `Rat` (the operations the embedded code performs
  on them - comparison, maximum, adding a constant - agree with rational
  arithmetic on all non-NaN values);
* `std::time::Instant` becomes a `Nat` count of nanoseconds and
  `Duration::from_secs` the corresponding scaling;
* fallible constructors return `Except String` or `Option`;
* a few leaf types whose defining crate is not part of the sources
  (`fan::Speed`, `ii_sensors::Measurement`, `utils::distance`) are modelled
  from the specification and marked as such in their doc comments.
-/

/-! ## Time (std::time) -/

/-- `std::time::Instant`, modelled as nanoseconds since an arbitrary origin. -/
abbrev Instant := Nat

/-- `Duration::from_secs`, in nanoseconds. -/
def Duration.from_secs (s : Nat) : Nat := s * 1000000000

/-- `Instant::duration_since`, in nanoseconds.  Truncated subtraction: the
monitor only ever measures elapsed time forward. -/
def Instant.duration_since (now earlier : Instant) : Nat := now - earlier

/-! ## Sensor data (ii_sensors) -/

/-- Modelled from the spec: the `ii_sensors::Measurement` enum (the sensors
crate's `lib.rs` is not among the sources); §3 of the spec enumerates its
variants `Ok(f) | OpenCircuit | ShortCircuit | InvalidReading | NotPresent`. -/
inductive Measurement where
  | Ok (t : Rat)
  | OpenCircuit
  | ShortCircuit
  | InvalidReading
  | NotPresent
  deriving DecidableEq, Repr

/-- Modelled from the spec: `ii_sensors::Temperature`, a pair of a local (PCB)
and a remote (chip) measurement.  `local` is a Lean keyword, hence `local_`. -/
structure Temperature where
  local_ : Measurement
  remote : Measurement
  deriving DecidableEq, Repr

/-! ## monitor.rs: constants -/

/-- monitor.rs: `START_TIMEOUT` (180 s). -/
def START_TIMEOUT : Nat := Duration.from_secs 180

/-- monitor.rs: `RUN_UPDATE_TIMEOUT` (20 s). -/
def RUN_UPDATE_TIMEOUT : Nat := Duration.from_secs 20

/-- monitor.rs: `WARM_UP_PERIOD` (90 s). -/
def WARM_UP_PERIOD : Nat := Duration.from_secs 90

/-! ## monitor.rs: chain state machine -/

/-- monitor.rs: `Message` - a message from a hashchain. -/
inductive Message where
  | On
  | Running (temperature : Temperature)
  | Off
  deriving DecidableEq, Repr

/-- monitor.rs: `ChainState`. -/
inductive ChainState where
  | On (started : Instant)
  | Running (started : Instant) (last_heartbeat : Instant) (temperature : Temperature)
  | Off
  | Broken (reason : String)
  deriving DecidableEq, Repr

/-- monitor.rs: `ChainState::bad_transition` - the state every invalid
transition lands in. -/
def ChainState.bad_transition : ChainState := .Broken "bad state transition"

/-- monitor.rs: `ChainState::transition` - react on an incoming message. -/
def ChainState.transition (self : ChainState) (now : Instant) (message : Message) :
    ChainState :=
  match message with
  | .On =>
    match self with
    | .Off => .On now
    | _ => ChainState.bad_transition
  | .Running temperature =>
    match self with
    | .Running started _ _ => .Running started now temperature
    | .On started => .Running started now temperature
    | _ => ChainState.bad_transition
  | .Off =>
    match self with
    | .On _ => .Off
    | .Running _ _ _ => .Off
    | _ => ChainState.bad_transition

/-- monitor.rs: `ChainState::tick` - check the start and heartbeat timeouts.
The `Broken` reason strings are exactly the string literals of the source. -/
def ChainState.tick (self : ChainState) (now : Instant) : ChainState :=
  match self with
  | .On started =>
    if START_TIMEOUT ≤ Instant.duration_since now started then
      .Broken "took too long to start"
    else self
  | .Running _ last_heartbeat _ =>
    if RUN_UPDATE_TIMEOUT ≤ Instant.duration_since now last_heartbeat then
      .Broken "failed to set update in time"
    else self
  | _ => self

/-- monitor.rs: `ChainState::is_warming_up`. -/
def ChainState.is_warming_up (self : ChainState) (now : Instant) : Bool :=
  match self with
  | .On _ => true
  | .Running started _ _ => Instant.duration_since now started ≤ WARM_UP_PERIOD
  | _ => false

/-! ## monitor.rs: chain temperature -/

/-- monitor.rs: `ChainTemperature` - interpreted hashchain temperature. -/
inductive ChainTemperature where
  | Unknown
  | Failed
  | Ok (t : Rat)
  deriving DecidableEq, Repr

/-- monitor.rs: `ChainTemperature::from_s9_sensor` - interpret a two-sensor
board reading; a missing remote (chip) sensor is faked from the local (PCB)
sensor plus 15 °C. -/
def ChainTemperature.from_s9_sensor (temp : Temperature) : ChainTemperature :=
  match temp.remote with
  | .Ok t_remote =>
    match temp.local_ with
    | .Ok t_local => .Ok (max t_remote t_local)
    | _ => .Ok t_remote
  | _ =>
    match temp.local_ with
    | .Ok t_local => .Ok (t_local + 15)
    | _ => .Unknown

/-- monitor.rs: `Display for ChainTemperature`.  The `{:.0}` float rounding of
the source's formatter is rendered exactly instead; no claim concerns the
reason strings this feeds. -/
def ChainTemperature.display : ChainTemperature → String
  | .Unknown => "???"
  | .Failed => "Fail"
  | .Ok t => reprStr t ++ "°C"

/-- monitor.rs: `ChainState::get_temperature`. -/
def ChainState.get_temperature (self : ChainState) : ChainTemperature :=
  match self with
  | .On _ => .Unknown
  | .Off => .Unknown
  | .Broken _ => .Failed
  | .Running _ _ temperature => ChainTemperature.from_s9_sensor temperature

/-! ## fan::Speed (collaborator) -/

/-- Modelled from the spec: `fan::Speed` (the `fan` module is not among the
sources).  Per §6/§9 a speed is a PWM duty in `[0,100]`; §4.G step 5 writes
the `STOPPED` sentinel as `UseFixedSpeed(0)` and `FULL` is full duty. -/
structure Speed where
  pwm : Nat
  deriving DecidableEq, Repr

/-- Modelled from the spec: `fan::Speed::STOPPED` (PWM 0, see §4.G step 5). -/
def Speed.STOPPED : Speed := ⟨0⟩

/-- Modelled from the spec: `fan::Speed::FULL_SPEED` (full PWM duty). -/
def Speed.FULL_SPEED : Speed := ⟨100⟩

/-! ## monitor.rs: configuration and the decision engine -/

/-- monitor.rs: `FanControlMode`. -/
inductive FanControlMode where
  | FixedSpeed (s : Speed)
  | TargetTemperature (t : Rat)
  deriving DecidableEq, Repr

/-- monitor.rs: `FanControlConfig`. -/
structure FanControlConfig where
  mode : FanControlMode
  min_fans : Nat
  deriving DecidableEq, Repr

/-- monitor.rs: `TempControlConfig`. -/
structure TempControlConfig where
  dangerous_temp : Rat
  hot_temp : Rat
  deriving DecidableEq, Repr

/-- monitor.rs: `Config` - "disabled" is represented as `none`. -/
structure Config where
  fan_config : Option FanControlConfig
  temp_config : Option TempControlConfig
  fans_on_while_warming_up : Bool
  deriving DecidableEq, Repr

/-- monitor.rs: `ControlDecision` - output of the decision process. -/
inductive ControlDecision where
  | Shutdown
  | UsePid (target_temp input_temp : Rat)
  | UseFixedSpeed (s : Speed)
  | Nothing
  deriving DecidableEq, Repr

/-- monitor.rs: `ControlDecisionExplained`. -/
structure ControlDecisionExplained where
  decision : ControlDecision
  reason : String
  deriving DecidableEq, Repr

/-- monitor.rs: `ControlDecision::decide_fan_control` - rules when both fan
control and temp control are enabled.  The source's `panic!` arm (reachable
only on inputs `decide` filters out beforehand) is `none`. -/
def ControlDecision.decide_fan_control (fan_config : FanControlConfig)
    (temp_config : TempControlConfig) (temp : ChainTemperature) :
    Option ControlDecisionExplained :=
  if temp = .Unknown then
    some ⟨.UseFixedSpeed Speed.FULL_SPEED, "Fans full speed: unknown temperature"⟩
  else
    match fan_config.mode with
    | .FixedSpeed pwm =>
      some ⟨.UseFixedSpeed pwm, "User defined fan " ++ toString pwm.pwm⟩
    | .TargetTemperature target_temp =>
      match temp with
      | .Failed | .Unknown => none
      | .Ok input_temp =>
        if temp_config.hot_temp ≤ input_temp then
          some ⟨.UseFixedSpeed Speed.FULL_SPEED,
            "Fans full speed: temperature " ++ temp.display ++ " above HOT"⟩
        else
          some ⟨.UsePid target_temp input_temp,
            "Automatic fan control: input " ++ temp.display ++ " target "
              ++ reprStr target_temp ++ "°C"⟩

/-- monitor.rs: `ControlDecision::decide_fan_control_notemp` - rules when fan
control is enabled and temp control disabled. -/
def ControlDecision.decide_fan_control_notemp (fan_config : FanControlConfig) :
    ControlDecisionExplained :=
  match fan_config.mode with
  | .FixedSpeed pwm =>
    ⟨.UseFixedSpeed pwm, "Fans to " ++ toString pwm.pwm ++ " (user defined)"⟩
  | .TargetTemperature _ =>
    ⟨.UseFixedSpeed Speed.FULL_SPEED, "wrong configuration - temp control off"⟩

/-- monitor.rs: the `TEMP_DANGER` section at the top of
`ControlDecision::decide` - the early returns for a failed readout or a
dangerous measured temperature (named here so the fan-health gate can be
stated relative to it). -/
def ControlDecision.temp_danger_check (config : Config) (temp : ChainTemperature) :
    Option ControlDecisionExplained :=
  match config.temp_config with
  | some temp_config =>
    match temp with
    | .Failed => some ⟨.Shutdown, "Shutdown: temperature readout FAILED"⟩
    | .Ok input_temp =>
      if temp_config.dangerous_temp ≤ input_temp then
        some ⟨.Shutdown, "Shutdown: temperature " ++ temp.display ++ " above DANGEROUS"⟩
      else none
    | .Unknown => none
  | none => none

/-- monitor.rs: the fan action chosen inside `ControlDecision::decide` before
the `FAN_DANGER` check: `decide_fan_control` when temp control is present,
`decide_fan_control_notemp` otherwise. -/
def ControlDecision.chosen_fan_action (config : Config)
    (fan_config : FanControlConfig) (temp : ChainTemperature) :
    Option ControlDecisionExplained :=
  match config.temp_config with
  | some temp_config => ControlDecision.decide_fan_control fan_config temp_config temp
  | none => some (ControlDecision.decide_fan_control_notemp fan_config)

/-- monitor.rs: `ControlDecision::decide` - `none` only on the unreachable
`panic!` path of `decide_fan_control`. -/
def ControlDecision.decide (config : Config) (num_fans_running : Nat)
    (temp : ChainTemperature) : Option ControlDecisionExplained :=
  match ControlDecision.temp_danger_check config temp with
  | some out => some out
  | none =>
    match config.fan_config with
    | some fan_config =>
      match ControlDecision.chosen_fan_action config fan_config temp with
      | none => none
      | some decision_explained =>
        if decision_explained.decision ≠ .UseFixedSpeed Speed.STOPPED then
          if num_fans_running < fan_config.min_fans then
            some ⟨.Shutdown, "Shutdown: not enough fans (" ++ toString num_fans_running
              ++ " < " ++ toString fan_config.min_fans ++ ")"⟩
          else some decision_explained
        else some decision_explained
    | none => some ⟨.Nothing, "control disabled"⟩

/-! ## monitor.rs: temperature accumulator -/

/-- monitor.rs: `TemperatureAccumulator`. -/
structure TemperatureAccumulator where
  chain_temperatures : List ChainTemperature
  deriving DecidableEq, Repr

/-- monitor.rs: `TemperatureAccumulator::add_chain_temp`. -/
def TemperatureAccumulator.add_chain_temp (self : TemperatureAccumulator)
    (chain_temp : ChainTemperature) : TemperatureAccumulator :=
  ⟨self.chain_temperatures ++ [chain_temp]⟩

/-- monitor.rs: the loop body of `TemperatureAccumulator::calc_result`:
walk the readings, returning `Failed` at the first failure, collecting
measurements into `temps`, and finally folding `max` over `temps` starting
from `0.0` (the source's `fold(0.0, |a, b| a.max(b))`). -/
def TemperatureAccumulator.calc_go :
    List ChainTemperature → List Rat → ChainTemperature
  | [], temps => if temps.length > 0 then .Ok (temps.foldl max 0) else .Unknown
  | .Failed :: _, _ => .Failed
  | .Unknown :: rest, temps => TemperatureAccumulator.calc_go rest temps
  | .Ok t :: rest, temps => TemperatureAccumulator.calc_go rest (temps ++ [t])

/-- monitor.rs: `TemperatureAccumulator::calc_result`. -/
def TemperatureAccumulator.calc_result (self : TemperatureAccumulator) :
    ChainTemperature :=
  TemperatureAccumulator.calc_go self.chain_temperatures []

/-- The measured (`Ok`) values of a reading list, in order. -/
def okVals (l : List ChainTemperature) : List Rat :=
  l.filterMap fun t =>
    match t with
    | .Ok x => some x
    | _ => none

/-! ## registry.rs: work registry

The registry is generic over the backend solution type `S` (Rust trait
`hal::BackendSolution`, of which only `nonce()` is used here, passed as a
function) and treats the work assignment `work::Assignment` as an opaque
type `W`. -/

/-- registry.rs: `WorkRegistryItem` - work plus the solutions seen for it. -/
structure WorkRegistryItem (W S : Type) where
  work : W
  solutions : List S
  initial_work : Bool

/-- bosminer `work::Solution::new(work, backend_solution, None)` as consumed
by the registry: an owning pair of the work assignment and the backend
solution (the dropped third argument is an unused origin field). -/
structure WorkSolution (W S : Type) where
  work : W
  backend : S

/-- registry.rs: `InsertSolutionStatus`. -/
structure InsertSolutionStatus (W S : Type) where
  mismatched_nonce : Bool
  duplicate : Bool
  unique_solution : Option (WorkSolution W S)

/-- registry.rs: `WorkRegistryItem::insert_solution` - detect a duplicate
nonce among the stored solutions, append otherwise, and always report the
aggregated solution.  Returns the status together with the updated item
(Rust mutates `self`). -/
def WorkRegistryItem.insert_solution {W S : Type} (nonce : S → Nat)
    (self : WorkRegistryItem W S) (new_solution : S) :
    InsertSolutionStatus W S × WorkRegistryItem W S :=
  match self.solutions.find? (fun solution => nonce solution == nonce new_solution) with
  | none =>
    (⟨false, false, some ⟨self.work, new_solution⟩⟩,
      { self with solutions := self.solutions ++ [new_solution] })
  | some _ =>
    (⟨false, true, some ⟨self.work, new_solution⟩⟩, self)

/-- registry.rs: `WorkRegistry`. -/
structure WorkRegistry (W S : Type) where
  registry_size : Nat
  next_work_id : Nat
  pending_work_list : List (Option (WorkRegistryItem W S))

/-- registry.rs: `WorkRegistry::new` - `registry_size` empty slots. -/
def WorkRegistry.new (W S : Type) (registry_size : Nat) : WorkRegistry W S :=
  ⟨registry_size, 0, List.replicate registry_size none⟩

/-- registry.rs: `WorkRegistry::alloc_next_work_id` - circular id allocator. -/
def WorkRegistry.alloc_next_work_id {W S : Type} (self : WorkRegistry W S) :
    Nat × WorkRegistry W S :=
  (self.next_work_id,
    { self with next_work_id := (self.next_work_id + 1) % self.registry_size })

/-- registry.rs: `WorkRegistry::store_work` - allocate the next work id,
retire the slot `registry_size / 2` ahead, put the new item in place. -/
def WorkRegistry.store_work {W S : Type} (self : WorkRegistry W S) (work : W)
    (initial_work : Bool) : Nat × WorkRegistry W S :=
  let p := self.alloc_next_work_id
  let work_id := p.1
  let self1 := p.2
  let retire_id := (work_id + self1.registry_size / 2) % self1.registry_size
  let l1 := self1.pending_work_list.set retire_id none
  let l2 := l1.set work_id (some ⟨work, [], initial_work⟩)
  (work_id, { self1 with pending_work_list := l2 })

/-- Iterated `store_work` (the sequence of calls claim C7 quantifies over):
returns the work ids in call order and the final registry. -/
def WorkRegistry.store_many {W S : Type} (self : WorkRegistry W S) :
    List (W × Bool) → List Nat × WorkRegistry W S
  | [] => ([], self)
  | (w, b) :: rest =>
    let p := self.store_work w b
    let q := p.2.store_many rest
    (p.1 :: q.1, q.2)

/-- registry.rs: `WorkRegistry::find_work` (requires `work_id < registry_size`,
the source `assert!`s). -/
def WorkRegistry.find_work {W S : Type} (self : WorkRegistry W S) (work_id : Nat) :
    Option (Option (WorkRegistryItem W S)) :=
  if work_id < self.registry_size then some (self.pending_work_list.getD work_id none)
  else none

/-! ## bm1387.rs: chip addressing and command packing -/

/-- bm1387.rs: `ChipAddress` - broadcast or linear chip address. -/
inductive ChipAddress where
  | All
  | One (x : Nat)
  deriving DecidableEq, Repr

/-- bm1387.rs: `ChipAddress::is_broadcast`. -/
def ChipAddress.is_broadcast : ChipAddress → Bool
  | .All => true
  | .One _ => false

/-- bm1387.rs: `ChipAddress::to_hw_addr` - `0` for broadcast, `4·i` for
`One(i)`; the source's `expect` panic when `4·i` does not fit a byte is
modelled as `none`. -/
def ChipAddress.to_hw_addr : ChipAddress → Option Nat
  | .All => some 0
  | .One x => if x * 4 < 256 then some (x * 4) else none

/-- bm1387.rs: `CoreAddress::new` - decode chip and core from a nonce. -/
def CoreAddress.new (nonce : Nat) : Nat × Nat :=
  ((nonce >>> 2) % 64, (nonce >>> 24) % 128)

/-- bm1387.rs: `CmdType` (always `VilCtlCmd = 0x02`). -/
inductive CmdType where
  | VilCtlCmd
  deriving DecidableEq, Repr

/-- The wire value of a `CmdType`. -/
def CmdType.value : CmdType → Nat
  | .VilCtlCmd => 2

/-- bm1387.rs: `Cmd` - the first command byte, split lsb0 into
`code` (bits 0:3), `to_all` (bit 4) and `cmd_type` (bits 5:7). -/
structure Cmd where
  code : Nat
  to_all : Bool
  cmd_type : CmdType
  deriving DecidableEq, Repr

/-- bm1387.rs: `Cmd::new`. -/
def Cmd.new (code : Nat) (to_all : Bool) : Cmd :=
  ⟨code, to_all, .VilCtlCmd⟩

/-- The packed single byte of a `Cmd` (packed_struct, `lsb0`). -/
def Cmd.pack (self : Cmd) : Nat :=
  (self.cmd_type.value <<< 5) + ((if self.to_all then 1 else 0) <<< 4) + self.code % 16

/-- bm1387.rs: `CmdHeader` (3 bytes: command byte, length, hardware address). -/
structure CmdHeader where
  cmd : Cmd
  length : Nat
  hw_addr : Nat
  deriving DecidableEq, Repr

/-- bm1387.rs: `CmdHeader::new_extended` - the length byte counts the command
without checksum plus `checksum_size`; fails iff the hardware address does. -/
def CmdHeader.new_extended (code : Nat) (length : Nat) (chip_address : ChipAddress)
    (checksum_size : Nat) : Option CmdHeader :=
  (chip_address.to_hw_addr).map fun hw =>
    ⟨Cmd.new code chip_address.is_broadcast, (length + checksum_size) % 256, hw⟩

/-- bm1387.rs: `CmdHeader::new` - control commands close with a 1-byte CRC5. -/
def CmdHeader.new (code : Nat) (length : Nat) (chip_address : ChipAddress) :
    Option CmdHeader :=
  CmdHeader.new_extended code length chip_address 1

/-- The three packed header bytes. -/
def CmdHeader.pack (self : CmdHeader) : List Nat :=
  [self.cmd.pack, self.length % 256, self.hw_addr % 256]

/-- Big-endian bytes of a 32-bit value (packed_struct `endian = "msb"`). -/
def u32_be_bytes (v : Nat) : List Nat :=
  [(v >>> 24) % 256, (v >>> 16) % 256, (v >>> 8) % 256, v % 256]

/-- bm1387.rs: `SetConfigCmd`. -/
structure SetConfigCmd where
  header : CmdHeader
  register : Nat
  value : Nat
  deriving DecidableEq, Repr

/-- `SetConfigCmd::packed_bytes()` - 3-byte header, register byte, 4-byte
value. -/
def SetConfigCmd.packed_bytes : Nat := 8

/-- bm1387.rs: `SetConfigCmd::new` (command code `0x08`). -/
def SetConfigCmd.new (chip_address : ChipAddress) (register : Nat) (value : Nat) :
    Option SetConfigCmd :=
  (CmdHeader.new 0x08 SetConfigCmd.packed_bytes chip_address).map fun header =>
    ⟨header, register, value⟩

/-- The packed bytes of a `SetConfigCmd` (big-endian value). -/
def SetConfigCmd.pack (self : SetConfigCmd) : List Nat :=
  self.header.pack ++ [self.register % 256] ++ u32_be_bytes self.value

/-- bm1387.rs: `GetStatusCmd`. -/
structure GetStatusCmd where
  header : CmdHeader
  register : Nat
  deriving DecidableEq, Repr

/-- `GetStatusCmd::packed_bytes()` - 3-byte header plus register byte. -/
def GetStatusCmd.packed_bytes : Nat := 4

/-- bm1387.rs: `GetStatusCmd::new` (command code `0x04`). -/
def GetStatusCmd.new (chip_address : ChipAddress) (register : Nat) :
    Option GetStatusCmd :=
  (CmdHeader.new 0x04 GetStatusCmd.packed_bytes chip_address).map fun header =>
    ⟨header, register⟩

/-- The packed bytes of a `GetStatusCmd`. -/
def GetStatusCmd.pack (self : GetStatusCmd) : List Nat :=
  self.header.pack ++ [self.register % 256]

/-! ## bm1387.rs: ticket mask register -/

/-- `u32::reverse_bits` - bit `i` moves to bit `31 - i`. -/
def reverseBits32 (x : Nat) : Nat :=
  (List.range 32).foldl (fun acc i => acc + ((x >>> i) % 2) <<< (31 - i)) 0

/-- `u32::swap_bytes`. -/
def swapBytes32 (x : Nat) : Nat :=
  ((x % 256) <<< 24) + (((x >>> 8) % 256) <<< 16) + (((x >>> 16) % 256) <<< 8)
    + ((x >>> 24) % 256)

/-- Fuelled binary bit count: `popcountGo fuel n` counts the one bits of the
`fuel` lowest binary digits of `n`. -/
def popcountGo : Nat → Nat → Nat
  | 0, _ => 0
  | fuel + 1, n => if n = 0 then 0 else n % 2 + popcountGo fuel (n / 2)

/-- `u32::count_ones`: 32 binary digits suffice for every `u32` value. -/
def popcount (n : Nat) : Nat :=
  popcountGo 32 n

/-- `u32::is_power_of_two`, defined in std as `count_ones(self) == 1`. -/
def isPowerOfTwo32 (n : Nat) : Bool :=
  popcount n == 1

/-- bm1387.rs: `TicketMaskReg` - stores `bit_reverse(difficulty - 1)` then
byte-swapped. -/
structure TicketMaskReg where
  ticket_mask : Nat
  deriving DecidableEq, Repr

/-- bm1387.rs: `TicketMaskReg::new` - difficulty must be a positive power of
two. -/
def TicketMaskReg.new (difficulty : Nat) : Except String TicketMaskReg :=
  if difficulty == 0 then
    .error "ASIC difficulty must be at least 1!"
  else if !(isPowerOfTwo32 difficulty) then
    .error "ASIC difficulty must be power of 2!"
  else
    .ok ⟨swapBytes32 (reverseBits32 (difficulty - 1))⟩

/-! ## bm1387.rs: PLL table -/

/-- bm1387.rs: `PllReg`, unpacked from a register word: `fbdiv` bits 23:16,
`refdiv` bits 13:8, `postdiv1` bits 7:4, `postdiv2` bits 3:0. -/
structure PllReg where
  fbdiv : Nat
  refdiv : Nat
  postdiv1 : Nat
  postdiv2 : Nat
  deriving DecidableEq, Repr

/-- bm1387.rs: `PllReg::from_reg` (big-endian register word). -/
def PllReg.from_reg (reg : Nat) : PllReg :=
  ⟨(reg >>> 16) % 256, (reg >>> 8) % 64, (reg >>> 4) % 16, reg % 16⟩

/-- bm1387.rs: `PllFrequency`. -/
structure PllFrequency where
  frequency : Nat
  reg : PllReg
  deriving DecidableEq, Repr

/-- bm1387.rs: `PllFrequency::new` - simulate the divider in 64-bit
arithmetic; the result is clamped to `usize::MAX` (64-bit target). -/
def PllFrequency.new (reg : PllReg) (xtal_freq : Nat) : PllFrequency :=
  ⟨min (xtal_freq * reg.fbdiv / reg.refdiv / reg.postdiv1 / reg.postdiv2)
    (2 ^ 64 - 1), reg⟩

/-- Modelled from the spec: `utils::distance` (the `utils` module is not
among the sources) - absolute difference, "the nearer by absolute
distance" metric of §4.B. -/
def distance (a b : Nat) : Nat :=
  if b ≤ a then a - b else b - a

/-- bm1387.rs: `BM1387_FACTORY_DIVIDERS` - the 115 factory divider words. -/
def BM1387_FACTORY_DIVIDERS : List Nat := [
  0x200241, 0x280241, 0x300241, 0x380241, 0x400241, 0x480241, 0x500241, 0x580241, 0x600241,
  0x680241, 0x700241, 0x780241, 0x800241, 0x610231, 0x410221, 0x620231, 0x420221, 0x640231,
  0x430221, 0x650231, 0x440221, 0x670231, 0x450221, 0x680231, 0x460221, 0x6a0231, 0x470221,
  0x6b0231, 0x480221, 0x6d0231, 0x490221, 0x6e0231, 0x4a0221, 0x700231, 0x4b0221, 0x710231,
  0x4c0221, 0x730231, 0x4d0221, 0x740231, 0x4e0221, 0x760231, 0x4f0221, 0x770231, 0x500221,
  0x790231, 0x510221, 0x7a0231, 0x520221, 0x7c0231, 0x530221, 0x7d0231, 0x540221, 0x7f0231,
  0x550221, 0x800231, 0x560221, 0x570221, 0x580221, 0x590221, 0x5a0221, 0x5b0221, 0x5c0221,
  0x5d0221, 0x5e0221, 0x5f0221, 0x600221, 0x610221, 0x620221, 0x630221, 0x640221, 0x650221,
  0x660221, 0x670221, 0x680221, 0x690221, 0x6a0221, 0x6b0221, 0x6c0221, 0x6d0221, 0x6e0221,
  0x6f0221, 0x700221, 0x710221, 0x720221, 0x730221, 0x740221, 0x750221, 0x760221, 0x770221,
  0x780221, 0x790221, 0x7a0221, 0x7b0221, 0x7c0221, 0x7d0221, 0x7e0221, 0x7f0221, 0x800221,
  0x420211, 0x440211, 0x460211, 0x480211, 0x4a0211, 0x4c0211, 0x4e0211, 0x500211, 0x520211,
  0x540211, 0x560211, 0x580211, 0x5a0211, 0x5c0211, 0x5e0211]

/-- Insertion step of a stable sort by ascending frequency. -/
def insertByFreq (p : PllFrequency) : List PllFrequency → List PllFrequency
  | [] => [p]
  | q :: rest =>
    if p.frequency ≤ q.frequency then p :: q :: rest else q :: insertByFreq p rest

/-- Stable insertion sort by ascending frequency, modelling the source's
`table.sort_by(|a, b| a.frequency.cmp(&b.frequency))`; on the factory table
all frequencies are distinct (proved below by evaluation), so every
comparison sort yields this same arrangement. -/
def sortByFreq (l : List PllFrequency) : List PllFrequency :=
  l.foldr insertByFreq []

/-- bm1387.rs: `PllTable::build_pll_table` - map the factory dividers through
the PLL simulation and sort by frequency (the source asserts
`xtal_freq = 25 MHz`). -/
def PllTable.build_pll_table (xtal_freq : Nat) : List PllFrequency :=
  sortByFreq (BM1387_FACTORY_DIVIDERS.map
    (fun reg_val => PllFrequency.new (PllReg.from_reg reg_val) xtal_freq))

/-- The factory table at the 25 MHz crystal. -/
def pllTable : List PllFrequency := PllTable.build_pll_table 25000000

/-- bm1387.rs: `PllTable::lookup`.  The source calls
`slice::binary_search_by_key` on the sorted table; that std function is
modelled by its specification: `Ok(i)` with `table[i].frequency = target`
when a match exists (unique here since the table is strictly sorted), else
`Err(i)` with `i` the insertion point, i.e. the first index whose frequency
is `≥ target`.  The `Err` handling then mirrors the source: out of range at
the ends, otherwise the nearer of the two bracketing entries with ties to
the lower. -/
def PllTable.lookup (table : List PllFrequency) (target_freq : Nat) :
    Except String PllFrequency :=
  let i := table.findIdx (fun p => target_freq ≤ p.frequency)
  match table[i]? with
  | some p =>
    if p.frequency = target_freq then .ok p
    else if i = 0 then
      .error ("Requested frequency " ++ toString target_freq ++ " out of range!")
    else
      match table[i - 1]? with
      | some q =>
        if distance q.frequency target_freq ≤ distance p.frequency target_freq then
          .ok q
        else .ok p
      | none => .error "unreachable"
  | none => .error ("Requested frequency " ++ toString target_freq ++ " out of range!")


deriving instance DecidableEq for Except

/-- A concrete sensor reading used by the closed evidence theorems. -/
def testTemp : Temperature := ⟨.Ok 10, .Ok 22⟩

/-- Claim C3: chain message transitions follow the §4.E table exactly and
`Broken` is terminal: `(Off, On) ↦ On(t)`; `(Off, Running)`, `(Off, Off)`,
`(On, On)`, `(Running, On)` ↦ `Broken`; `(On(s), Running(T))` and
`(Running{started=s}, Running(T))` ↦ `Running{started=s, last_heartbeat=t,
temperature=T}`; `(On, Off)` and `(Running, Off)` ↦ `Off`; and from `Broken`
every message and every tick leaves the state `Broken`. -/
theorem chainstate_transition_table (t : Instant) (T temp0 : Temperature)
    (s h : Instant) (r : String) :
    ChainState.transition .Off t .On = .On t
  ∧ ChainState.transition .Off t (.Running T) = .Broken "bad state transition"
  ∧ ChainState.transition .Off t .Off = .Broken "bad state transition"
  ∧ ChainState.transition (.On s) t (.Running T) = .Running s t T
  ∧ ChainState.transition (.On s) t .Off = .Off
  ∧ ChainState.transition (.On s) t .On = .Broken "bad state transition"
  ∧ ChainState.transition (.Running s h temp0) t (.Running T) = .Running s t T
  ∧ ChainState.transition (.Running s h temp0) t .Off = .Off
  ∧ ChainState.transition (.Running s h temp0) t .On = .Broken "bad state transition"
  ∧ (∀ m, ChainState.transition (.Broken r) t m = .Broken "bad state transition")
  ∧ ChainState.tick (.Broken r) t = .Broken r := by
  refine ⟨rfl, rfl, rfl, rfl, rfl, rfl, rfl, rfl, rfl, ?_, rfl⟩
  intro m
  cases m <;> rfl

/-- Claim C2 (evidence of a code bug): the tick timeouts behave as specified -
`On(0)` ticked at 181 s breaks, `Running{last_heartbeat=0}` ticked at 20 s
breaks, at 19 s stays `Running`, `Off` never times out - but the `Broken`
reason produced by the run-update timeout is the source's literal
`"failed to set update in time"`, not `"failed to send update in time"`
claimed by the spec (the doc comments of `RUN_UPDATE_TIMEOUT` and
`ChainState::tick` both speak of the chain failing to *send* updates). -/
theorem chainstate_tick_timeout_strings :
    ChainState.tick (.Running 0 0 testTemp) (Duration.from_secs 20)
      = .Broken "failed to set update in time"
  ∧ ChainState.tick (.Running 0 0 testTemp) (Duration.from_secs 20)
      ≠ .Broken "failed to send update in time"
  ∧ ChainState.tick (.On 0) (Duration.from_secs 181) = .Broken "took too long to start"
  ∧ ChainState.tick (.On 0) (Duration.from_secs 180) = .Broken "took too long to start"
  ∧ ChainState.tick (.On 0) (Duration.from_secs 179) = .On 0
  ∧ ChainState.tick (.Running 0 0 testTemp) (Duration.from_secs 19)
      = .Running 0 0 testTemp
  ∧ ChainState.tick .Off (Duration.from_secs 1000000) = .Off := by
  refine ⟨by decide, by decide, by decide, by decide, by decide, by decide, by decide⟩

/-- Helper: the `TEMP_DANGER` early returns only ever decide `Shutdown`. -/
theorem temp_danger_check_shutdown (config : Config) (temp : ChainTemperature)
    (out : ControlDecisionExplained)
    (h : ControlDecision.temp_danger_check config temp = some out) :
    out.decision = .Shutdown := by
  simp only [ControlDecision.temp_danger_check] at h
  split at h
  · split at h
    · injection h with h'
      rw [← h']
    · split at h
      · injection h with h'
        rw [← h']
      · exact absurd h (by simp)
    · exact absurd h (by simp)
  · exact absurd h (by simp)

/-- Claim C1: the fan-health gate of the decision engine.  When `fan_config`
is present with minimum fan count `min_fans`: (1) whenever the fan action
chosen by the preceding steps is not `UseFixedSpeed(STOPPED)` and fewer than
`min_fans` fans run, `decide` returns `Shutdown` (also when the temperature
danger gate fired first, since that gate only decides `Shutdown`); (2) when
the chosen action is `UseFixedSpeed(STOPPED)` - fans configured off - the
under-count check is skipped and that action is returned unchanged for every
fan count, including zero. -/
theorem decide_fan_health_gate (config : Config) (fc : FanControlConfig)
    (n : Nat) (temp : ChainTemperature) (hfc : config.fan_config = some fc) :
    (∀ d, ControlDecision.chosen_fan_action config fc temp = some d →
      d.decision ≠ .UseFixedSpeed Speed.STOPPED → n < fc.min_fans →
      ∃ e, ControlDecision.decide config n temp = some e ∧ e.decision = .Shutdown)
  ∧ (∀ d, ControlDecision.temp_danger_check config temp = none →
      ControlDecision.chosen_fan_action config fc temp = some d →
      d.decision = .UseFixedSpeed Speed.STOPPED →
      ControlDecision.decide config n temp = some d) := by
  constructor
  · intro d hd hne hn
    cases htd : ControlDecision.temp_danger_check config temp with
    | some out =>
      refine ⟨out, ?_, temp_danger_check_shutdown config temp out htd⟩
      simp only [ControlDecision.decide, htd]
    | none =>
      have hout : ControlDecision.decide config n temp = some ⟨.Shutdown,
          "Shutdown: not enough fans (" ++ toString n ++ " < "
            ++ toString fc.min_fans ++ ")"⟩ := by
        simp only [ControlDecision.decide, htd, hfc, hd]
        simp [hne, hn]
      exact ⟨_, hout, rfl⟩
  · intro d htd hd hstop
    simp only [ControlDecision.decide, htd, hfc, hd]
    simp [hstop]

/-- Claim C1 witness: with fan control fixed at PWM 50, `min_fans = 2` and one
running fan the decision is `Shutdown`; with fans configured `STOPPED` and
zero running fans the stop command survives the gate. -/
theorem decide_fan_health_gate_witness :
    (∃ e, ControlDecision.decide ⟨some ⟨.FixedSpeed ⟨50⟩, 2⟩, none, true⟩ 1 (.Ok 150)
        = some e ∧ e.decision = .Shutdown)
  ∧ ControlDecision.decide ⟨some ⟨.FixedSpeed Speed.STOPPED, 2⟩, none, true⟩ 0 (.Ok 150)
      = some (ControlDecision.decide_fan_control_notemp ⟨.FixedSpeed Speed.STOPPED, 2⟩) := by
  constructor
  · exact (decide_fan_health_gate ⟨some ⟨.FixedSpeed ⟨50⟩, 2⟩, none, true⟩
      ⟨.FixedSpeed ⟨50⟩, 2⟩ 1 (.Ok 150) rfl).1
      (ControlDecision.decide_fan_control_notemp ⟨.FixedSpeed ⟨50⟩, 2⟩)
      rfl (by decide) (by decide)
  · exact (decide_fan_health_gate ⟨some ⟨.FixedSpeed Speed.STOPPED, 2⟩, none, true⟩
      ⟨.FixedSpeed Speed.STOPPED, 2⟩ 0 (.Ok 150) rfl).2
      (ControlDecision.decide_fan_control_notemp ⟨.FixedSpeed Speed.STOPPED, 2⟩)
      rfl rfl rfl

/-- Helper: a `Failed` reading anywhere makes the accumulator loop return
`Failed` (the walk early-returns at the first one). -/
theorem calc_go_of_failed_mem (l : List ChainTemperature) (acc : List Rat)
    (h : ChainTemperature.Failed ∈ l) :
    TemperatureAccumulator.calc_go l acc = .Failed := by
  induction l generalizing acc with
  | nil => cases h
  | cons head rest ih =>
    cases head with
    | Failed => rfl
    | Unknown =>
      simp only [List.mem_cons, reduceCtorEq, false_or] at h
      exact ih acc h
    | Ok t =>
      simp only [List.mem_cons, reduceCtorEq, false_or] at h
      exact ih (acc ++ [t]) h

/-- Helper: without a `Failed` reading, the loop collects exactly the `Ok`
values after the accumulator and folds `max` from `0`. -/
theorem calc_go_of_no_failed (l : List ChainTemperature) (acc : List Rat)
    (h : ChainTemperature.Failed ∉ l) :
    TemperatureAccumulator.calc_go l acc =
      if (acc ++ okVals l).length > 0 then .Ok ((acc ++ okVals l).foldl max 0)
      else .Unknown := by
  induction l generalizing acc with
  | nil => simp [TemperatureAccumulator.calc_go, okVals]
  | cons head rest ih =>
    cases head with
    | Failed => exact absurd (List.mem_cons_self _ _) h
    | Unknown =>
      have h' : ChainTemperature.Failed ∉ rest := fun hm => h (List.mem_cons_of_mem _ hm)
      simp only [TemperatureAccumulator.calc_go, ih acc h', okVals, List.filterMap_cons]
    | Ok t =>
      have h' : ChainTemperature.Failed ∉ rest := fun hm => h (List.mem_cons_of_mem _ hm)
      simp only [TemperatureAccumulator.calc_go, ih (acc ++ [t]) h', okVals,
        List.filterMap_cons, List.append_assoc, List.singleton_append]

/-- Helper: properties of the left fold of `max` over rationals. -/
theorem foldl_max_spec (L : List Rat) (a : Rat) :
    a ≤ L.foldl max a ∧ (∀ x ∈ L, x ≤ L.foldl max a)
  ∧ (L.foldl max a = a ∨ L.foldl max a ∈ L) := by
  induction L generalizing a with
  | nil => exact ⟨le_refl a, by simp, Or.inl rfl⟩
  | cons x rest ih =>
    simp only [List.foldl_cons]
    obtain ⟨h1, h2, h3⟩ := ih (max a x)
    refine ⟨le_trans (le_max_left a x) h1, ?_, ?_⟩
    · intro y hy
      rcases List.mem_cons.mp hy with hy | hy
      · exact le_trans (le_trans hy.le (le_max_right a x)) h1
      · exact h2 y hy
    · rcases h3 with h3 | h3
      · rcases max_choice a x with hc | hc
        · exact Or.inl (by rw [h3, hc])
        · exact Or.inr (by rw [h3, hc]; exact List.mem_cons_self _ _)
      · exact Or.inr (List.mem_cons_of_mem _ h3)

/-- Claim C4 counterexample: a single sub-zero measurement refutes the claim
as stated - the fold starts at `0.0`, so `calc_result` of `[Ok(-5)]` is
`Ok(0)`, not `Ok(-5)`, the maximum of the `Ok` values. -/
theorem calc_result_negative_counterexample :
    TemperatureAccumulator.calc_result ⟨[.Ok (-5)]⟩ = .Ok 0
  ∧ TemperatureAccumulator.calc_result ⟨[.Ok (-5)]⟩ ≠ .Ok (-5)
  ∧ okVals [.Ok (-5)] = [-5] := by
  refine ⟨by decide, by decide, by decide⟩

/-- Claim C4 (amended): `calc_result` returns `Failed` if any element is
`Failed`; otherwise, if at least one element is `Ok`, it returns `Ok(m)`
where `m` is the maximum of `0` and all the `Ok` values (the fold starts at
`0`, clamping sub-zero maxima); otherwise it returns `Unknown`. -/
theorem calc_result_spec (l : List ChainTemperature) :
    (ChainTemperature.Failed ∈ l →
      TemperatureAccumulator.calc_result ⟨l⟩ = .Failed)
  ∧ (ChainTemperature.Failed ∉ l → okVals l ≠ [] →
      ∃ m, TemperatureAccumulator.calc_result ⟨l⟩ = .Ok m ∧ 0 ≤ m ∧
        (∀ x ∈ okVals l, x ≤ m) ∧ (m = 0 ∨ m ∈ okVals l))
  ∧ (ChainTemperature.Failed ∉ l → okVals l = [] →
      TemperatureAccumulator.calc_result ⟨l⟩ = .Unknown) := by
  refine ⟨?_, ?_, ?_⟩
  · intro h
    exact calc_go_of_failed_mem l [] h
  · intro hnf hne
    have hres := calc_go_of_no_failed l [] hnf
    simp only [List.nil_append] at hres
    rw [TemperatureAccumulator.calc_result, hres,
      if_pos (List.length_pos.mpr hne)]
    obtain ⟨h0, hall, hmem⟩ := foldl_max_spec (okVals l) 0
    exact ⟨_, rfl, h0, hall, hmem⟩
  · intro hnf he
    have hres := calc_go_of_no_failed l [] hnf
    simp only [List.nil_append] at hres
    rw [TemperatureAccumulator.calc_result, hres, he]
    simp

/-- Claim C4 witness: on `[Ok 10, Unknown, Ok 4]` (no failure, some
measurements) the amended specification applies and yields a maximum. -/
theorem calc_result_spec_witness :
    ∃ m, TemperatureAccumulator.calc_result ⟨[.Ok 10, .Unknown, .Ok 4]⟩ = .Ok m
      ∧ 0 ≤ m ∧ (∀ x ∈ okVals [.Ok 10, .Unknown, .Ok 4], x ≤ m)
      ∧ (m = 0 ∨ m ∈ okVals [.Ok 10, .Unknown, .Ok 4]) :=
  (calc_result_spec [.Ok 10, .Unknown, .Ok 4]).2.1 (by decide) (by decide)

/-- Claim C8: `insert_solution` reports `duplicate = true` and leaves the
solution list unchanged exactly when an already-stored solution has the same
nonce as the new one; otherwise it appends the new solution
(`duplicate = false`); in both cases the status carries
`unique_solution = some` of the item's work assignment paired with the new
solution. -/
theorem insert_solution_spec {W S : Type} (nonce : S → Nat)
    (item : WorkRegistryItem W S) (s : S) :
    ((∃ old ∈ item.solutions, nonce old = nonce s) →
      (item.insert_solution nonce s).1.duplicate = true
        ∧ (item.insert_solution nonce s).2.solutions = item.solutions)
  ∧ ((¬ ∃ old ∈ item.solutions, nonce old = nonce s) →
      (item.insert_solution nonce s).1.duplicate = false
        ∧ (item.insert_solution nonce s).2.solutions = item.solutions ++ [s])
  ∧ (item.insert_solution nonce s).1.unique_solution = some ⟨item.work, s⟩ := by
  cases hf : item.solutions.find? (fun old => nonce old == nonce s) with
  | none =>
    have hno : ¬ ∃ old ∈ item.solutions, nonce old = nonce s := by
      rw [List.find?_eq_none] at hf
      rintro ⟨old, hmem, he⟩
      exact absurd (by simpa using he) (by simpa using hf old hmem)
    refine ⟨fun h => absurd h hno, fun _ => ?_, ?_⟩
    · constructor <;> simp [WorkRegistryItem.insert_solution, hf]
    · simp [WorkRegistryItem.insert_solution, hf]
  | some x =>
    have hyes : ∃ old ∈ item.solutions, nonce old = nonce s :=
      ⟨x, List.mem_of_find?_eq_some hf, by simpa using List.find?_some hf⟩
    refine ⟨fun _ => ?_, fun h => absurd hyes h, ?_⟩
    · constructor <;> simp [WorkRegistryItem.insert_solution, hf]
    · simp [WorkRegistryItem.insert_solution, hf]

/-- Claim C8 witness: on an item already holding a solution with nonce 5,
inserting another nonce-5 solution is a duplicate and does not grow the
list; inserting nonce 7 appends. -/
theorem insert_solution_spec_witness :
    ((WorkRegistryItem.insert_solution id ⟨0, [5], false⟩ 5).1.duplicate = true
      ∧ (WorkRegistryItem.insert_solution id ⟨0, [5], false⟩ 5).2.solutions = [5])
  ∧ ((WorkRegistryItem.insert_solution id ⟨0, [5], false⟩ 7).1.duplicate = false
      ∧ (WorkRegistryItem.insert_solution id ⟨0, [5], false⟩ 7).2.solutions = [5, 7]) := by
  constructor
  · exact (@insert_solution_spec Nat Nat id ⟨0, [5], false⟩ 5).1 ⟨5, by simp, rfl⟩
  · exact (@insert_solution_spec Nat Nat id ⟨0, [5], false⟩ 7).2.1 (by simp)

/-- Claim C10: no code path of `insert_solution` ever sets the
`mismatched_nonce` flag of the returned status - it is always `false`. -/
theorem insert_solution_no_mismatched_nonce {W S : Type} (nonce : S → Nat)
    (item : WorkRegistryItem W S) (s : S) :
    (item.insert_solution nonce s).1.mismatched_nonce = false := by
  unfold WorkRegistryItem.insert_solution
  cases item.solutions.find? (fun solution => nonce solution == nonce s) <;> rfl

/-- Helper: `getD` after `set` at the same (in-range) index. -/
theorem getD_set_self {α : Type} (l : List α) {i : Nat} (a d : α) (h : i < l.length) :
    (l.set i a).getD i d = a := by
  rw [List.getD_eq_getElem?_getD, List.getElem?_set]
  simp [h]

/-- Helper: `getD` after `set` at a different index. -/
theorem getD_set_ne {α : Type} (l : List α) {i j : Nat} (a d : α) (h : i ≠ j) :
    (l.set i a).getD j d = l.getD j d := by
  rw [List.getD_eq_getElem?_getD, List.getElem?_set, if_neg h,
    ← List.getD_eq_getElem?_getD]

/-- Helper: two naturals closer than the modulus with equal residues are
equal. -/
theorem eq_of_mod_eq_of_close {N i j : Nat} (hij : i ≤ j) (hlt : j < i + N)
    (hm : i % N = j % N) : i = j := by
  have hd : N ∣ j - i := (Nat.modEq_iff_dvd' hij).mp hm
  rcases Nat.eq_zero_or_pos (j - i) with h0 | hpos
  · omega
  · have := Nat.le_of_dvd hpos hd
    omega

/-- Helper: one `store_work` call on a registry of even size `N ≥ 2` whose
occupied slots are exactly the residues of the window `[k - N/2, k)` returns
work id `k % N` and moves the window one step forward. -/
theorem store_work_step {W S : Type} {N k : Nat} (hN : 2 ≤ N) (hEv : N % 2 = 0)
    (r : WorkRegistry W S) (w : W) (b : Bool)
    (h1 : r.registry_size = N) (h2 : r.next_work_id = k % N)
    (h3 : r.pending_work_list.length = N)
    (h4 : ∀ s, s < N → (((r.pending_work_list.getD s none).isSome) ↔
        ∃ i, i < k ∧ k ≤ i + N / 2 ∧ s = i % N)) :
    (r.store_work w b).1 = k % N
  ∧ (r.store_work w b).2.registry_size = N
  ∧ (r.store_work w b).2.next_work_id = (k + 1) % N
  ∧ (r.store_work w b).2.pending_work_list.length = N
  ∧ ∀ s, s < N → ((((r.store_work w b).2.pending_work_list.getD s none).isSome) ↔
      ∃ i, i < k + 1 ∧ k + 1 ≤ i + N / 2 ∧ s = i % N) := by
  have hN0 : 0 < N := by omega
  have hkN : k % N < N := Nat.mod_lt _ hN0
  have hretire : (k % N + N / 2) % N = (k + N / 2) % N := Nat.mod_add_mod k N (N / 2)
  have hlist : (r.store_work w b).2.pending_work_list
      = (r.pending_work_list.set ((k % N + N / 2) % N) none).set (k % N)
          (some ⟨w, [], b⟩) := by
    simp [WorkRegistry.store_work, WorkRegistry.alloc_next_work_id, h1, h2]
  refine ⟨by simp [WorkRegistry.store_work, WorkRegistry.alloc_next_work_id, h2],
    by simp [WorkRegistry.store_work, WorkRegistry.alloc_next_work_id, h1],
    by simp [WorkRegistry.store_work, WorkRegistry.alloc_next_work_id, h1, h2,
      Nat.mod_add_mod],
    by rw [hlist]; simp [List.length_set, h3],
    ?_⟩
  intro s hs
  rw [hlist]
  by_cases hsk : s = k % N
  · subst hsk
    rw [getD_set_self _ _ _ (by simp [List.length_set, h3]; exact hkN)]
    exact iff_of_true (by simp) ⟨k, by omega, by omega, rfl⟩
  · rw [getD_set_ne _ _ _ (fun he => hsk he.symm)]
    by_cases hsr : s = (k + N / 2) % N
    · have hs' : s = (k % N + N / 2) % N := by rw [hretire]; exact hsr
      have hnone : (r.pending_work_list.set ((k % N + N / 2) % N) none).getD s none
          = none := by
        rw [hs']
        exact getD_set_self _ _ _ (by rw [h3]; exact Nat.mod_lt _ hN0)
      rw [hnone]
      refine iff_of_false (by simp) ?_
      rintro ⟨i, hi1, hi2, hi3⟩
      rw [hi3] at hsr
      have : i = k + N / 2 := eq_of_mod_eq_of_close (by omega) (by omega) hsr
      omega
    · rw [getD_set_ne _ _ _ (fun he => hsr (by rw [← he]; exact hretire))]
      rw [h4 s hs]
      constructor
      · rintro ⟨i, hi1, hi2, hi3⟩
        refine ⟨i, by omega, ?_, hi3⟩
        rcases Nat.lt_or_ge k (i + N / 2) with hlt | hge
        · omega
        · exfalso
          apply hsr
          rw [hi3, show k + N / 2 = i + N / 2 + N / 2 by omega,
            show i + N / 2 + N / 2 = i + N by omega, Nat.add_mod_right]
      · rintro ⟨i, hi1, hi2, hi3⟩
        have hik : i ≠ k := fun he => hsk (by rw [hi3, he])
        exact ⟨i, by omega, by omega, hi3⟩

/-- Helper: the full invariant of a `store_work` sequence - ids are assigned
in order modulo `N` and occupied slots are the residues of the last at most
`N/2` global store indices. -/
theorem store_many_invariant {W S : Type} {N : Nat} (hN : 2 ≤ N) (hEv : N % 2 = 0)
    (inputs : List (W × Bool)) :
    ∀ (r : WorkRegistry W S) (k : Nat),
      r.registry_size = N → r.next_work_id = k % N →
      r.pending_work_list.length = N →
      (∀ s, s < N → (((r.pending_work_list.getD s none).isSome) ↔
          ∃ i, i < k ∧ k ≤ i + N / 2 ∧ s = i % N)) →
      (r.store_many inputs).1 = (List.range' k inputs.length).map (· % N)
      ∧ (r.store_many inputs).2.registry_size = N
      ∧ (r.store_many inputs).2.next_work_id = (k + inputs.length) % N
      ∧ (r.store_many inputs).2.pending_work_list.length = N
      ∧ (∀ s, s < N → ((((r.store_many inputs).2.pending_work_list.getD s none).isSome) ↔
          ∃ i, i < k + inputs.length ∧ k + inputs.length ≤ i + N / 2 ∧ s = i % N)) := by
  induction inputs with
  | nil =>
    intro r k h1 h2 h3 h4
    exact ⟨rfl, h1, by simpa using h2, h3, by simpa using h4⟩
  | cons hd rest ih =>
    intro r k h1 h2 h3 h4
    obtain ⟨w, b⟩ := hd
    obtain ⟨hid, hsz, hnext, hlen, hocc⟩ := store_work_step hN hEv r w b h1 h2 h3 h4
    obtain ⟨ih1, ih2, ih3, ih4, ih5⟩ := ih (r.store_work w b).2 (k + 1) hsz hnext hlen hocc
    refine ⟨?_, ih2, ?_, ih4, ?_⟩
    · show (r.store_work w b).1 :: ((r.store_work w b).2.store_many rest).1
          = (List.range' k ((w, b) :: rest).length).map (· % N)
      rw [hid, ih1, List.length_cons, List.range'_succ, List.map_cons]
    · show ((r.store_work w b).2.store_many rest).2.next_work_id
          = (k + ((w, b) :: rest).length) % N
      rw [ih3, List.length_cons, show k + (rest.length + 1) = k + 1 + rest.length from by omega]
    · intro s hs
      show (((r.store_work w b).2.store_many rest).2.pending_work_list.getD s none).isSome
          ↔ ∃ i, i < k + ((w, b) :: rest).length
            ∧ k + ((w, b) :: rest).length ≤ i + N / 2 ∧ s = i % N
      rw [List.length_cons, show k + (rest.length + 1) = k + 1 + rest.length from by omega]
      exact ih5 s hs

/-- Helper: counting occupied slots equals counting the in-range indices whose
`getD` is occupied. -/
theorem countP_isSome_eq_range {α : Type} (l : List (Option α)) :
    l.countP (fun o => o.isSome)
      = (List.range l.length).countP (fun s => (l.getD s none).isSome) := by
  induction l with
  | nil => rfl
  | cons a t ih =>
    rw [List.countP_cons, List.length_cons, List.range_succ_eq_map, List.countP_cons,
      List.countP_map]
    have hcomp : ((fun s => ((a :: t).getD s none).isSome) ∘ Nat.succ)
        = (fun s => (t.getD s none).isSome) := by
      funext s
      simp [List.getD_cons_succ]
    rw [hcomp, ← ih]
    simp [List.getD_cons_zero]

/-- Helper: a `countP` over `List.range` is the cardinality of the
corresponding `Finset.range` filter. -/
theorem countP_range_eq_card_filter (N : Nat) (p : Nat → Bool) :
    (List.range N).countP p = ((Finset.range N).filter (fun s => p s = true)).card := by
  induction N with
  | zero => rfl
  | succ n ih =>
    rw [List.range_succ, List.countP_append, Finset.range_succ, Finset.filter_insert]
    by_cases hp : p n = true
    · rw [if_pos hp, Finset.card_insert_of_not_mem (by simp), ih]
      simp [hp]
    · rw [if_neg hp, ih]
      simp [hp]

/-- Claim C7: on a fresh registry of even size `N ≥ 2`, a sequence of `k`
`store_work` calls returns work ids `0 % N, 1 % N, …, (k-1) % N` in order; a
slot is occupied exactly when it is the residue of one of the last
`min(k, N/2)` stored works (the window `i < k ≤ i + N/2`); right after the
`j`-th call the retired slot `(j + N/2) % N` is empty; and once `k ≥ N/2`
exactly `N/2` slots are occupied. -/
theorem work_registry_occupancy {W S : Type} (inputs : List (W × Bool)) {N : Nat}
    (hN : 2 ≤ N) (hEv : N % 2 = 0) :
    ((WorkRegistry.new W S N).store_many inputs).1
        = (List.range inputs.length).map (· % N)
  ∧ (∀ s, s < N →
      ((((WorkRegistry.new W S N).store_many inputs).2.pending_work_list.getD s none).isSome
        ↔ ∃ i, i < inputs.length ∧ inputs.length ≤ i + N / 2 ∧ s = i % N))
  ∧ (∀ j, j < inputs.length →
      ((WorkRegistry.new W S N).store_many (inputs.take (j + 1))).2.pending_work_list.getD
          ((j + N / 2) % N) none = none)
  ∧ (N / 2 ≤ inputs.length →
      (((WorkRegistry.new W S N).store_many inputs).2.pending_work_list.countP
        (fun o => o.isSome)) = N / 2) := by
  have hN0 : 0 < N := by omega
  have hbase : ∀ s, s < N →
      ((((WorkRegistry.new W S N).pending_work_list.getD s none).isSome) ↔
        ∃ i, i < 0 ∧ 0 ≤ i + N / 2 ∧ s = i % N) := by
    intro s hs
    refine iff_of_false ?_ (by rintro ⟨i, hi, _⟩; omega)
    simp [WorkRegistry.new, List.getD_eq_getElem?_getD, List.getElem?_replicate, hs]
  obtain ⟨m1, m2, m3, m4, m5⟩ := store_many_invariant hN hEv inputs
    (WorkRegistry.new W S N) 0 rfl (by simp [WorkRegistry.new])
    (by simp [WorkRegistry.new]) hbase
  have hocc : ∀ s, s < N →
      ((((WorkRegistry.new W S N).store_many inputs).2.pending_work_list.getD s none).isSome
        ↔ ∃ i, i < inputs.length ∧ inputs.length ≤ i + N / 2 ∧ s = i % N) := by
    simpa using m5
  refine ⟨by rw [List.range_eq_range']; exact m1, hocc, ?_, ?_⟩
  · intro j hj
    obtain ⟨_, _, _, _, p5⟩ := store_many_invariant hN hEv (inputs.take (j + 1))
      (WorkRegistry.new W S N) 0 rfl (by simp [WorkRegistry.new])
      (by simp [WorkRegistry.new]) hbase
    have htake : (inputs.take (j + 1)).length = j + 1 := by
      rw [List.length_take]
      omega
    have hiff := p5 ((j + N / 2) % N) (Nat.mod_lt _ hN0)
    simp only [htake, Nat.zero_add] at hiff
    rw [← Option.not_isSome_iff_eq_none, hiff]
    rintro ⟨i, hi1, hi2, hi3⟩
    have : i = j + N / 2 := eq_of_mod_eq_of_close (by omega) (by omega) hi3.symm
    omega
  · intro hk
    rw [countP_isSome_eq_range, m4, countP_range_eq_card_filter]
    have hset : (Finset.range N).filter
          (fun s => (((WorkRegistry.new W S N).store_many
            inputs).2.pending_work_list.getD s none).isSome = true)
        = (Finset.Ico (inputs.length - N / 2) inputs.length).image (· % N) := by
      ext s
      rw [Finset.mem_filter, Finset.mem_image, Finset.mem_range]
      constructor
      · rintro ⟨hsN, hocc'⟩
        obtain ⟨i, hi1, hi2, hi3⟩ := (hocc s hsN).mp hocc'
        exact ⟨i, Finset.mem_Ico.mpr ⟨by omega, hi1⟩, hi3.symm⟩
      · rintro ⟨i, hmem, hi⟩
        obtain ⟨hi1, hi2⟩ := Finset.mem_Ico.mp hmem
        have hsN : s < N := by
          rw [← hi]
          exact Nat.mod_lt _ hN0
        exact ⟨hsN, (hocc s hsN).mpr ⟨i, hi2, by omega, hi.symm⟩⟩
    have hinj : Set.InjOn (· % N) ↑(Finset.Ico (inputs.length - N / 2) inputs.length) := by
      intro i hi j hj hij
      rw [Finset.mem_coe, Finset.mem_Ico] at hi hj
      rcases le_total i j with hle | hle
      · exact eq_of_mod_eq_of_close hle (by omega) hij
      · exact (eq_of_mod_eq_of_close hle (by omega) hij.symm).symm
    rw [hset, Finset.card_image_of_injOn hinj, Nat.card_Ico]
    omega

/-- Claim C7 witness: three stores into a fresh size-4 registry yield ids
`[0, 1, 2]` and leave exactly `4/2 = 2` slots occupied. -/
theorem work_registry_occupancy_witness :
    ((WorkRegistry.new Nat Nat 4).store_many [(0, false), (1, false), (2, false)]).1
        = [0, 1, 2]
  ∧ ((WorkRegistry.new Nat Nat 4).store_many
        [(0, false), (1, false), (2, false)]).2.pending_work_list.countP
          (fun o => o.isSome) = 2 := by
  obtain ⟨h1, _, _, h4⟩ := @work_registry_occupancy Nat Nat
    [(0, false), (1, false), (2, false)] 4 (by norm_num) (by norm_num)
  constructor
  · rw [h1]
    rfl
  · simpa using h4 (by norm_num)

/-- Helper: the fuelled bit count of zero is zero. -/
theorem popcountGo_zero (fuel : Nat) : popcountGo fuel 0 = 0 := by
  cases fuel <;> simp [popcountGo]

/-- Helper: within its fuel, the bit count is zero only on zero. -/
theorem popcountGo_eq_zero_iff : ∀ fuel n, n < 2 ^ fuel →
    (popcountGo fuel n = 0 ↔ n = 0) := by
  intro fuel
  induction fuel with
  | zero =>
    intro n hn
    norm_num at hn
    exact iff_of_true rfl (by omega)
  | succ fuel ih =>
    intro n hn
    by_cases h0 : n = 0
    · simp [popcountGo, h0]
    · have hdiv : n / 2 < 2 ^ fuel := by
        rw [pow_succ] at hn
        omega
      have ihh := ih (n / 2) hdiv
      simp only [popcountGo, if_neg h0]
      constructor
      · intro he
        have h2 : popcountGo fuel (n / 2) = 0 := by omega
        have := ihh.mp h2
        omega
      · intro he
        exact absurd he h0

/-- Helper: within its fuel, the bit count is one exactly on the powers of
two. -/
theorem popcountGo_eq_one_iff : ∀ fuel n, n < 2 ^ fuel →
    (popcountGo fuel n = 1 ↔ ∃ k, n = 2 ^ k) := by
  intro fuel
  induction fuel with
  | zero =>
    intro n hn
    norm_num at hn
    refine iff_of_false (by simp [hn, popcountGo]) ?_
    rintro ⟨k, hk⟩
    have := Nat.two_pow_pos k
    omega
  | succ fuel ih =>
    intro n hn
    by_cases h0 : n = 0
    · subst h0
      refine iff_of_false (by simp [popcountGo]) ?_
      rintro ⟨k, hk⟩
      have := Nat.two_pow_pos k
      omega
    · have hdiv : n / 2 < 2 ^ fuel := by
        rw [pow_succ] at hn
        omega
      have ihh := ih (n / 2) hdiv
      simp only [popcountGo, if_neg h0]
      constructor
      · intro he
        by_cases hpar : n % 2 = 1
        · have hz : popcountGo fuel (n / 2) = 0 := by omega
          have h00 := (popcountGo_eq_zero_iff fuel (n / 2) hdiv).mp hz
          have hn1 : n = 1 := by omega
          exact ⟨0, by rw [hn1]; norm_num⟩
        · have h1 : popcountGo fuel (n / 2) = 1 := by omega
          obtain ⟨k, hk⟩ := ihh.mp h1
          refine ⟨k + 1, ?_⟩
          rw [pow_succ]
          omega
      · rintro ⟨k, hk⟩
        subst hk
        cases k with
        | zero => norm_num [popcountGo_zero]
        | succ k' =>
          have hkd : 2 ^ (k' + 1) / 2 = 2 ^ k' := by
            rw [pow_succ]
            omega
          have hkm : 2 ^ (k' + 1) % 2 = 0 := by
            rw [pow_succ]
            omega
          rw [hkm, hkd]
          rw [hkd] at ihh
          have h1 : popcountGo fuel (2 ^ k') = 1 := ihh.mpr ⟨k', rfl⟩
          omega

/-- Claim C5: `TicketMaskReg::new(d)` succeeds iff `d ≥ 1` and `d` is a power
of two; the stored register value is `bit_reverse(d - 1)` then byte-swapped;
in particular `d = 0` and `d = 2047` fail, `d = 1`, `d = 64` (register
`0x000000FC`) and `d = 2048` (register `0x0000E0FF`) succeed. -/
theorem ticket_mask_spec (d : Nat) (hd : d < 2 ^ 32) :
    ((∃ r, TicketMaskReg.new d = .ok r) ↔ (1 ≤ d ∧ ∃ k, d = 2 ^ k))
  ∧ (∀ r, TicketMaskReg.new d = .ok r →
      r.ticket_mask = swapBytes32 (reverseBits32 (d - 1)))
  ∧ TicketMaskReg.new 0 = .error "ASIC difficulty must be at least 1!"
  ∧ TicketMaskReg.new 2047 = .error "ASIC difficulty must be power of 2!"
  ∧ TicketMaskReg.new 1 = .ok ⟨0x00000000⟩
  ∧ TicketMaskReg.new 64 = .ok ⟨0x000000FC⟩
  ∧ TicketMaskReg.new 2048 = .ok ⟨0x0000E0FF⟩ := by
  refine ⟨?_, ?_, rfl, rfl, rfl, rfl, rfl⟩
  · by_cases h0 : d = 0
    · subst h0
      refine iff_of_false ?_ (by omega)
      rintro ⟨r, hr⟩
      simp [TicketMaskReg.new] at hr
    · by_cases hpow : isPowerOfTwo32 d
      · have hok : TicketMaskReg.new d
            = .ok ⟨swapBytes32 (reverseBits32 (d - 1))⟩ := by
          simp [TicketMaskReg.new, h0, hpow]
        refine iff_of_true ⟨_, hok⟩ ⟨by omega, ?_⟩
        have h1 : popcountGo 32 d = 1 := by
          simpa [isPowerOfTwo32, popcount] using hpow
        exact (popcountGo_eq_one_iff 32 d hd).mp h1
      · refine iff_of_false ?_ ?_
        · rintro ⟨r, hr⟩
          simp [TicketMaskReg.new, h0, hpow] at hr
        · rintro ⟨h1, k, hk⟩
          apply hpow
          have h2 : popcountGo 32 d = 1 :=
            (popcountGo_eq_one_iff 32 d hd).mpr ⟨k, hk⟩
          simp [isPowerOfTwo32, popcount, h2]
  · intro r hr
    by_cases h0 : d = 0
    · subst h0
      simp [TicketMaskReg.new] at hr
    · by_cases hpow : isPowerOfTwo32 d
      · simp [TicketMaskReg.new, h0, hpow] at hr
        rw [← hr]
      · simp [TicketMaskReg.new, h0, hpow] at hr

/-- Claim C5 witness: difficulty 64 is accepted, being the power of two
`2^6`. -/
theorem ticket_mask_spec_witness :
    (∃ r, TicketMaskReg.new 64 = .ok r) ∧ 1 ≤ 64 ∧ ∃ k, (64 : Nat) = 2 ^ k := by
  have h := (ticket_mask_spec 64 (by norm_num)).1
  have hr : 1 ≤ 64 ∧ ∃ k, (64 : Nat) = 2 ^ k := ⟨by norm_num, 6, by norm_num⟩
  exact ⟨h.mpr hr, hr⟩

/-- Claim C9: `SetConfig(One(9), PLL = 0x0c, 0x00680221)` packs to exactly
`48 09 24 0C 00 68 02 21` and `GetStatus(All, GetAddress = 0x00)` to exactly
`54 05 00 00`; broadcast headers set the `to_all` bit and hardware address
byte `0`, while `One(i)` headers clear `to_all` and use hardware address
`4·i`. -/
theorem set_config_get_status_encoding :
    ((SetConfigCmd.new (.One 9) 0x0c 0x00680221).map SetConfigCmd.pack)
        = some [0x48, 0x09, 0x24, 0x0c, 0x00, 0x68, 0x02, 0x21]
  ∧ ((GetStatusCmd.new .All 0x00).map GetStatusCmd.pack)
        = some [0x54, 0x05, 0x00, 0x00]
  ∧ ChipAddress.to_hw_addr .All = some 0
  ∧ (∀ i, i * 4 < 256 → ChipAddress.to_hw_addr (.One i) = some (i * 4))
  ∧ (∀ code len cs hdr, CmdHeader.new_extended code len .All cs = some hdr →
      hdr.cmd.to_all = true ∧ hdr.hw_addr = 0)
  ∧ (∀ code len cs i hdr, CmdHeader.new_extended code len (.One i) cs = some hdr →
      hdr.cmd.to_all = false ∧ hdr.hw_addr = i * 4) := by
  refine ⟨rfl, rfl, rfl, ?_, ?_, ?_⟩
  · intro i hi
    simp [ChipAddress.to_hw_addr, hi]
  · intro code len cs hdr hh
    simp [CmdHeader.new_extended, ChipAddress.to_hw_addr, ChipAddress.is_broadcast,
      Cmd.new] at hh
    rw [← hh]
    exact ⟨rfl, rfl⟩
  · intro code len cs i hdr hh
    by_cases hi : i * 4 < 256
    · simp [CmdHeader.new_extended, ChipAddress.to_hw_addr, ChipAddress.is_broadcast,
        Cmd.new, hi] at hh
      rw [← hh]
      exact ⟨rfl, rfl⟩
    · simp [CmdHeader.new_extended, ChipAddress.to_hw_addr, hi] at hh

/-- Claim C9 witness: the header of `SetConfig` built for chip 9 carries
hardware address `36 = 4·9` with the broadcast bit clear. -/
theorem set_config_get_status_encoding_witness :
    ChipAddress.to_hw_addr (.One 9) = some 36
  ∧ ∃ hdr, CmdHeader.new_extended 0x08 8 (.One 9) 1 = some hdr
      ∧ hdr.cmd.to_all = false ∧ hdr.hw_addr = 36 := by
  obtain ⟨_, _, _, h4, _, h6⟩ := set_config_get_status_encoding
  refine ⟨by simpa using h4 9 (by norm_num), ?_⟩
  refine ⟨⟨Cmd.new 0x08 false, 9, 36⟩, rfl, ?_⟩
  simpa using h6 0x08 8 1 9 ⟨Cmd.new 0x08 false, 9, 36⟩ rfl

set_option maxRecDepth 10000 in
set_option maxHeartbeats 1000000 in
/-- Helper: the factory PLL table is strictly sorted by frequency (so all 114
frequencies are distinct). -/
theorem pllTable_sorted :
    List.Pairwise (fun p q => p.frequency < q.frequency) pllTable := by
  decide

/-- Helper: `PllTable.lookup` unfolded (the `let` inlined). -/
theorem lookup_unfold (table : List PllFrequency) (t : Nat) :
    PllTable.lookup table t =
      match table[table.findIdx (fun p => t ≤ p.frequency)]? with
      | some p =>
        if p.frequency = t then .ok p
        else if table.findIdx (fun p => t ≤ p.frequency) = 0 then
          .error ("Requested frequency " ++ toString t ++ " out of range!")
        else
          match table[table.findIdx (fun p => t ≤ p.frequency) - 1]? with
          | some q =>
            if distance q.frequency t ≤ distance p.frequency t then .ok q
            else .ok p
          | none => .error "unreachable"
      | none => .error ("Requested frequency " ++ toString t ++ " out of range!") :=
  rfl

/-- Helper: on a strictly sorted table, a target strictly between the
adjacent entries `i` and `i + 1` resolves to the nearer of the two, ties to
the lower. -/
theorem lookup_of_bracket (table : List PllFrequency)
    (hp : List.Pairwise (fun p q => p.frequency < q.frequency) table)
    {i t : Nat} {p q : PllFrequency}
    (hip : table[i]? = some p) (hiq : table[i + 1]? = some q)
    (hpt : p.frequency < t) (htq : t < q.frequency) :
    PllTable.lookup table t =
      if distance p.frequency t ≤ distance q.frequency t then .ok p else .ok q := by
  have hmono := List.pairwise_iff_getElem.mp hp
  obtain ⟨hi1, hq⟩ := List.getElem?_eq_some.mp hiq
  obtain ⟨hi0, hp'⟩ := List.getElem?_eq_some.mp hip
  have hfind : table.findIdx (fun r => t ≤ r.frequency) = i + 1 := by
    rw [List.findIdx_eq hi1]
    constructor
    · simp only [hq, decide_eq_true_eq]
      omega
    · intro j hj
      have hjlen : j < table.length := by omega
      have hle : table[j].frequency ≤ p.frequency := by
        rcases Nat.lt_or_ge j i with hji | hji
        · have hlt := hmono j i hjlen hi0 hji
          rw [hp'] at hlt
          omega
        · have hje : j = i := by omega
          subst hje
          rw [hp']
      simp only [decide_eq_false_iff_not]
      omega
  rw [lookup_unfold]
  simp only [hfind, Nat.add_sub_cancel, hiq, hip]
  rw [if_neg (by omega : ¬ q.frequency = t), if_neg (by omega : ¬ i + 1 = 0)]

/-- Helper: on a strictly sorted non-empty table, `lookup` errors exactly when
the target is below the first or above the last frequency. -/
theorem lookup_error_iff (table : List PllFrequency)
    (hp : List.Pairwise (fun p q => p.frequency < q.frequency) table)
    {ph pl : PllFrequency} (hhead : table[0]? = some ph)
    (hlast : table[table.length - 1]? = some pl) (t : Nat) :
    (∃ msg, PllTable.lookup table t = .error msg) ↔
      (t < ph.frequency ∨ pl.frequency < t) := by
  have hmono := List.pairwise_iff_getElem.mp hp
  obtain ⟨h0len, hph⟩ := List.getElem?_eq_some.mp hhead
  obtain ⟨hlen1, hpl⟩ := List.getElem?_eq_some.mp hlast
  have hF1 : table.findIdx (fun r => t ≤ r.frequency) = table.length ↔
      pl.frequency < t := by
    rw [List.findIdx_eq_length]
    constructor
    · intro hall
      have hplmem : pl ∈ table := hpl ▸ List.getElem_mem hlen1
      have := hall pl hplmem
      simp only [decide_eq_false_iff_not] at this
      omega
    · intro hlt x hx
      obtain ⟨j, hj, hxj⟩ := List.getElem_of_mem hx
      have hxle : x.frequency ≤ pl.frequency := by
        rcases Nat.lt_or_ge j (table.length - 1) with hjl | hjl
        · have hlt2 := hmono j (table.length - 1) hj hlen1 hjl
          rw [hxj, hpl] at hlt2
          omega
        · have hje : j = table.length - 1 := by omega
          subst hje
          have hxpl : x = pl := by
            rw [← hxj]
            exact hpl
          rw [hxpl]
      simp only [decide_eq_false_iff_not]
      omega
  constructor
  · rintro ⟨msg, hmsg⟩
    by_contra hcon
    push_neg at hcon
    obtain ⟨hc1, hc2⟩ := hcon
    have hilen : table.findIdx (fun r => t ≤ r.frequency) < table.length := by
      rcases Nat.lt_or_ge (table.findIdx fun r => t ≤ r.frequency) table.length with h | h
      · exact h
      · exfalso
        have hle := @List.findIdx_le_length _ (fun r => decide (t ≤ r.frequency)) table
        have heq : table.findIdx (fun r => t ≤ r.frequency) = table.length := by omega
        have := hF1.mp heq
        omega
    have hcond : t ≤ table[table.findIdx (fun r => t ≤ r.frequency)].frequency := by
      have := @List.findIdx_getElem _ _ _ hilen
      simpa using this
    rw [lookup_unfold, List.getElem?_eq_getElem hilen] at hmsg
    dsimp only at hmsg
    by_cases heq : table[table.findIdx (fun r => t ≤ r.frequency)].frequency = t
    · rw [if_pos heq] at hmsg
      exact Except.noConfusion hmsg
    · rw [if_neg heq] at hmsg
      by_cases hiz : table.findIdx (fun r => t ≤ r.frequency) = 0
      · exfalso
        apply heq
        have hidx : table[table.findIdx (fun r => t ≤ r.frequency)] = ph := by
          simp only [hiz]
          exact hph
        rw [hidx] at hcond ⊢
        omega
      · rw [if_neg hiz] at hmsg
        have hi1len : table.findIdx (fun r => t ≤ r.frequency) - 1 < table.length := by
          omega
        rw [List.getElem?_eq_getElem hi1len] at hmsg
        dsimp only at hmsg
        split at hmsg <;> exact Except.noConfusion hmsg
  · intro hcase
    rcases hcase with hlow | hhigh
    · have hi0 : table.findIdx (fun r => t ≤ r.frequency) = 0 := by
        rw [List.findIdx_eq h0len]
        constructor
        · simp only [hph, decide_eq_true_eq]
          omega
        · intro j hj
          exact absurd hj (Nat.not_lt_zero j)
      refine ⟨"Requested frequency " ++ toString t ++ " out of range!", ?_⟩
      rw [lookup_unfold, hi0, List.getElem?_eq_getElem h0len]
      dsimp only
      rw [if_neg (show ¬ table[0].frequency = t by rw [hph]; omega), if_pos rfl]
    · have hiL : table.findIdx (fun r => t ≤ r.frequency) = table.length := hF1.mpr hhigh
      refine ⟨"Requested frequency " ++ toString t ++ " out of range!", ?_⟩
      rw [lookup_unfold, hiL, List.getElem?_eq_none (le_refl _)]

set_option maxRecDepth 10000 in
set_option maxHeartbeats 1000000 in
/-- Claim C6: PLL nearest-frequency lookup on the sorted factory table: an
exact table frequency resolves to its own entry; a target strictly between
two adjacent table frequencies resolves to the nearer of the two, with ties
to the lower frequency; the lookup errors exactly when the target is below
the smallest (100 MHz) or above the largest (1175 MHz) table frequency; and
the required vectors hold: `lookup(650_000_000) = 650_000_000`,
`lookup(703_125_000) = 700_000_000` (a tie, resolved downward),
`lookup(703_125_001) = 706_250_000`, `lookup(0)` and `lookup(1_175_000_001)`
are errors. -/
theorem pll_lookup_spec :
    (∀ p ∈ pllTable, PllTable.lookup pllTable p.frequency = .ok p)
  ∧ (∀ i t p q, pllTable[i]? = some p → pllTable[i + 1]? = some q →
      p.frequency < t → t < q.frequency →
      PllTable.lookup pllTable t =
        if distance p.frequency t ≤ distance q.frequency t then .ok p else .ok q)
  ∧ (∀ t, (∃ msg, PllTable.lookup pllTable t = .error msg) ↔
      (t < 100000000 ∨ 1175000000 < t))
  ∧ PllTable.lookup pllTable 650000000 = .ok ⟨650000000, ⟨0x68, 2, 2, 1⟩⟩
  ∧ PllTable.lookup pllTable 703125000 = .ok ⟨700000000, ⟨0x70, 2, 2, 1⟩⟩
  ∧ PllTable.lookup pllTable 703125001 = .ok ⟨706250000, ⟨0x71, 2, 2, 1⟩⟩
  ∧ PllTable.lookup pllTable 0 = .error "Requested frequency 0 out of range!"
  ∧ PllTable.lookup pllTable 1175000001
      = .error "Requested frequency 1175000001 out of range!" := by
  refine ⟨by decide, ?_, ?_, rfl, rfl, rfl, rfl, rfl⟩
  · intro i t p q hip hiq hpt htq
    exact lookup_of_bracket pllTable pllTable_sorted hip hiq hpt htq
  · intro t
    exact lookup_error_iff pllTable pllTable_sorted
      (show pllTable[0]? = some ⟨100000000, ⟨0x20, 2, 4, 1⟩⟩ from rfl)
      (show pllTable[pllTable.length - 1]? = some ⟨1175000000, ⟨0x5e, 2, 1, 1⟩⟩ from rfl)
      t

set_option maxRecDepth 10000 in
/-- Claim C6 witness: the exact-hit branch at 650 MHz, and the bracket branch
for 703 125 000 between the adjacent entries 700 MHz (index 82) and
706.25 MHz (index 83). -/
theorem pll_lookup_spec_witness :
    PllTable.lookup pllTable 650000000 = .ok ⟨650000000, ⟨0x68, 2, 2, 1⟩⟩
  ∧ PllTable.lookup pllTable 703125000 =
      (if distance 700000000 703125000 ≤ distance 706250000 703125000
        then Except.ok (⟨700000000, ⟨0x70, 2, 2, 1⟩⟩ : PllFrequency)
        else .ok ⟨706250000, ⟨0x71, 2, 2, 1⟩⟩) := by
  obtain ⟨h1, h2, _⟩ := pll_lookup_spec
  constructor
  · exact h1 ⟨650000000, ⟨0x68, 2, 2, 1⟩⟩ (by decide)
  · exact h2 82 703125000 ⟨700000000, ⟨0x70, 2, 2, 1⟩⟩ ⟨706250000, ⟨0x71, 2, 2, 1⟩⟩
      rfl rfl (by norm_num) (by norm_num)
